import Mathlib

/-!
Verification development for the `CollectionService` of ngx-collection
(`src/libs/ngx-collection/src/lib/collection.service.ts`).

Modelling conventions:

* Entities (`T` in the source) are an abstract Lean type `T`.  The pluggable
  comparator (`this.comparator.equal`) is modelled as a boolean relation
  `eq : T → T → Bool`; the argument order of every application below matches
  the corresponding call site in the source.  `Partial<T>` is modelled as `T`
  itself (at runtime the TypeScript code makes no distinction).
* The file `comparator.ts` is not part of the sources; concrete claim
  instances therefore use comparators modelled from the spec (§4.1):
  a comparator configured with field `id` compares the `id` values of the
  two sides by strict value equality.
* JavaScript numbers are modelled as `ℚ` (rationals): `Math.round(x) === x`
  holds exactly for integral values, i.e. denominator 1.
* Asynchronous requests are modelled by their single awaited outcome, an
  `Except E A` value (`first()` takes exactly one emission); each public
  operation becomes a pure function from that outcome and the current state
  to the new state plus the list of invoked `onSuccess`/`onError` callbacks.
  The `finalize` step of the rxjs pipe is applied on every branch, matching
  its guaranteed execution. `errReporter` diagnostics and the
  `throwOnDuplicates` escalation are not part of the observed callback log
  (no claim concerns them); configurations are taken with `throwOnDuplicates`
  unset, the default.
-/

namespace NgxCollection

universe u

/-- Embeds the method `has(item, items)` (source lines 258–263): membership of
`item` in `items` under the comparator, `items.find((i) => equal(item, i))`.
The optional `excludeIndex` parameter is never supplied anywhere in the
source file and is omitted. -/
def has {T : Type} (eq : T → T → Bool) (item : T) (items : List T) : Bool :=
  items.any (fun i => eq item i)

/-- Embeds `getItemByPartial(partItem, items)` (source lines 265–267):
`items.find(i => equal(i, partItem))`.  (The Lean name drops the tail of the
source name.) -/
def getItemByPart {T : Type} (eq : T → T → Bool) (partItem : T) (items : List T) : Option T :=
  items.find? (fun i => eq i partItem)

/-- Embeds `hasItemIn(item, arr)` (source lines 855–860):
`arr.includes(item) || arr.findIndex(i => equal(i, item)) > -1`.
`includes` uses JavaScript `===`; two `===`-identical objects are the same
value, modelled by structural equality (`List.contains`). -/
def hasItemIn {T : Type} [DecidableEq T] (eq : T → T → Bool) (item : T) (arr : List T) : Bool :=
  arr.contains item || arr.any (fun i => eq i item)

/-- Embeds `upsertOne(item, items)` (source lines 269–292).  The source scans
for `firstIndex` (first comparator match) and `duplicateIndex` (a second
match); no match appends `item`, a unique match replaces the element at
`firstIndex`, a second match returns `'duplicate'` (modelled as `none`)
without touching the sequence.  The structural recursion below performs the
same scan: elements before the first match are kept, at the first match the
remainder is scanned for a second match. -/
def upsertOne {T : Type} (eq : T → T → Bool) (item : T) : List T → Option (List T)
  | [] => some [item]
  | x :: xs =>
    if eq item x then
      if xs.any (fun y => eq item y) then none else some (item :: xs)
    else
      match upsertOne eq item xs with
      | none => none
      | some ys => some (x :: ys)

/-- Embeds `hasDuplicates(items)` (source lines 294–306): pairwise scan in
index order `(i, j)`, `j > i`, returning the second element `items[j]` of the
first comparator-equal pair, or `null` (here `none`). -/
def hasDuplicates {T : Type} (eq : T → T → Bool) : List T → Option T
  | [] => none
  | x :: xs =>
    match xs.find? (fun y => eq x y) with
    | some y => some y
    | none => hasDuplicates eq xs

/-- Loop of `upsertMany` (source lines 316–320): folds `upsertOne` over the
batch, short-circuiting with the offending entity on the first `'duplicate'`. -/
def upsertManyGo {T : Type} (eq : T → T → Bool) : List T → List T → (List T) ⊕ T
  | [], toItems => Sum.inl toItems
  | x :: xs, toItems =>
    match upsertOne eq x toItems with
    | none => Sum.inr x
    | some next => upsertManyGo eq xs next

/-- Embeds `upsertMany(items, toItems)` (source lines 308–322): rejects a
batch with an internal duplicate, otherwise folds `upsertOne`.  `Sum.inr d`
models the `{duplicate: d}` result (the source never sets `preExisting`,
which is diagnostic-only). -/
def upsertMany {T : Type} (eq : T → T → Bool) (items : List T) (toItems : List T) :
    (List T) ⊕ T :=
  match hasDuplicates eq items with
  | some d => Sum.inr d
  | none => upsertManyGo eq items toItems

/-- Model of a JavaScript response payload value, as far as
`getDecrementedTotalCount` inspects it: `typeof x === 'object'` holds for
objects, arrays and `null`; `Object.hasOwn`/field access is modelled by
association-list lookup on `obj` (arrays and primitives expose no named own
fields in our payloads). -/
inductive JsVal : Type where
  | num (q : ℚ)
  | str (s : String)
  | boolV (b : Bool)
  | nullV
  | undef
  | obj (fields : List (String × JsVal))
  | arr (elems : List JsVal)

/-- Model of the `decrementTotalCount` parameter,
`boolean | number | string`; `none` at the use sites models an absent
(`undefined`/`null`) parameter. -/
inductive DecArg : Type where
  | bool (b : Bool)
  | num (q : ℚ)
  | str (s : String)

/-- Embeds `getDecrementedTotalCount(response, itemsCount, prevTotalCount,
decrementTotalCount)` (source lines 357–400).
String argument: only a response array of length exactly 1 whose single
element is a non-null object owning the named field with a non-negative
integral number value yields that value.  Number argument: requires truthy
`prevTotalCount` (present and nonzero), an integral positive value at most
`prevTotalCount`, and returns the difference.  Boolean argument (either
`true` or `false` — the source only tests `typeof`): requires truthy
`prevTotalCount` at least `itemsCount` and subtracts `itemsCount`.
All other cases return `null` (`none`); the source's `try/catch` cannot fire
in this total model. -/
def getDecrementedTotalCount (response : List JsVal) (itemsCount : ℕ)
    (prevTotalCount : Option ℚ) (decrementTotalCount : Option DecArg) : Option ℚ :=
  match decrementTotalCount with
  | none => none
  | some (DecArg.str f) =>
    if response.length = 1 then
      match response.head? with
      | some (JsVal.obj fields) =>
        match fields.lookup f with
        | some (JsVal.num q) => if 0 ≤ q ∧ q.den = 1 then some q else none
        | _ => none
      | _ => none
    else none
  | some (DecArg.num d) =>
    match prevTotalCount with
    | some p => if p ≠ 0 ∧ d.den = 1 ∧ 0 < d ∧ d ≤ p then some (p - d) else none
    | none => none
  | some (DecArg.bool _) =>
    match prevTotalCount with
    | some p => if p ≠ 0 ∧ (itemsCount : ℚ) ≤ p then some (p - (itemsCount : ℚ)) else none
    | none => none

/-- Helper used to state membership of an operation's input in a tracking
set: a tracking-set member `i` "matches" the operation's single input `p`
when `equal(i, p)`, and a list input `ps` when `has(i, ps)` — the exact
predicates used by `removeFromUpdatingItems` / `removeFromDeletingItems` /
`removeFromRefreshingItems` (source lines 194–204, 220–230, 246–256). -/
def matchesOp {T : Type} (eq : T → T → Bool) (input : T ⊕ List T) (i : T) : Bool :=
  match input with
  | Sum.inl p => eq i p
  | Sum.inr ps => has eq i ps

/-- Shared body of `addToUpdatingItems`, `addToDeletingItems` and
`addToRefreshingItems` (source lines 180–192, 206–218, 232–244), which are
textually identical up to the state field.  Each input is resolved to
`getItemByPartial(i, s.items) ?? i`; the whole resolved list is appended
unless `hasItemIn(item, set)` holds for the *original argument* `item` —
which for a list input compares the array value itself against the set
members.  An array is never `===` to an entity held in the set (`includes`
is `false`), and the comparator applied to an entity and an array value is
modelled by the separate parameter `eqArr`. -/
def addToTrackingItems {T : Type} [DecidableEq T] (eq : T → T → Bool)
    (eqArr : T → List T → Bool) (input : T ⊕ List T)
    (stateItems trackingSet : List T) : List T :=
  match input with
  | Sum.inl p =>
    if hasItemIn eq p trackingSet then trackingSet
    else trackingSet ++ [(getItemByPart eq p stateItems).getD p]
  | Sum.inr ps =>
    if trackingSet.any (fun i => eqArr i ps) then trackingSet
    else trackingSet ++ ps.map (fun q => (getItemByPart eq q stateItems).getD q)

/-- Shared body of `removeFromUpdatingItems`, `removeFromDeletingItems` and
`removeFromRefreshingItems` (source lines 194–204, 220–230, 246–256):
filters out every set member comparator-equal to the single input
(`equal(i, item)`) resp. to any element of the list input (`has(i, item)`). -/
def removeFromTrackingItems {T : Type} (eq : T → T → Bool) (input : T ⊕ List T)
    (trackingSet : List T) : List T :=
  trackingSet.filter (fun i => !(matchesOp eq input i))

/-- Embeds `addToUpdatingItems` (source lines 180–192). -/
def addToUpdatingItems {T : Type} [DecidableEq T] (eq : T → T → Bool)
    (eqArr : T → List T → Bool) (input : T ⊕ List T)
    (stateItems updatingItems : List T) : List T :=
  addToTrackingItems eq eqArr input stateItems updatingItems

/-- Embeds `removeFromUpdatingItems` (source lines 194–204). -/
def removeFromUpdatingItems {T : Type} (eq : T → T → Bool) (input : T ⊕ List T)
    (updatingItems : List T) : List T :=
  removeFromTrackingItems eq input updatingItems

/-- Embeds `addToDeletingItems` (source lines 206–218). -/
def addToDeletingItems {T : Type} [DecidableEq T] (eq : T → T → Bool)
    (eqArr : T → List T → Bool) (input : T ⊕ List T)
    (stateItems deletingItems : List T) : List T :=
  addToTrackingItems eq eqArr input stateItems deletingItems

/-- Embeds `removeFromDeletingItems` (source lines 220–230). -/
def removeFromDeletingItems {T : Type} (eq : T → T → Bool) (input : T ⊕ List T)
    (deletingItems : List T) : List T :=
  removeFromTrackingItems eq input deletingItems

/-- Embeds `addToRefreshingItems` (source lines 232–244). -/
def addToRefreshingItems {T : Type} [DecidableEq T] (eq : T → T → Bool)
    (eqArr : T → List T → Bool) (input : T ⊕ List T)
    (stateItems refreshingItems : List T) : List T :=
  addToTrackingItems eq eqArr input stateItems refreshingItems

/-- Embeds `removeFromRefreshingItems` (source lines 246–256). -/
def removeFromRefreshingItems {T : Type} (eq : T → T → Bool) (input : T ⊕ List T)
    (refreshingItems : List T) : List T :=
  removeFromTrackingItems eq input refreshingItems

/-- Embeds the `CollectionState<T, UniqueStatus, Status>` interface (source
lines 9–19).  `status : Map<UniqueStatus, T>` and
`statuses : Map<T, Set<Status>>` are modelled as association lists; no
operation embedded here touches them. -/
structure CollState (T U S : Type) where
  items : List T
  totalCountFetched : Option ℚ
  isCreating : Bool
  isReading : Bool
  updatingItems : List T
  deletingItems : List T
  refreshingItems : List T
  status : List (U × T)
  statuses : List (T × List S)
deriving DecidableEq

/-- The state installed by the constructor (source lines 405–414):
everything empty, both flags `false`, `totalCountFetched` absent. -/
def initialState {T U S : Type} : CollState T U S :=
  { items := [], totalCountFetched := none, isCreating := false, isReading := false,
    updatingItems := [], deletingItems := [], refreshingItems := [],
    status := [], statuses := [] }

/-- Modelled from the spec (§6, "Fetched-batch shape") and the uses of the
`FetchedItems<T>` interface in the source (`interfaces.ts` is not among the
sources): a fetched batch is either a bare array of entities
(`Array.isArray(fetched)`) or a structured `{items, totalCount?}` payload. -/
inductive Fetched (T : Type) : Type where
  | bare (items : List T)
  | withCount (items : List T) (totalCount : Option ℚ)
deriving DecidableEq

/-- The entity list of a fetched batch (`Array.isArray(fetched) ? fetched :
fetched.items`). -/
def Fetched.itemsOf {T : Type} : Fetched T → List T
  | Fetched.bare l => l
  | Fetched.withCount l _ => l

/-- One recorded callback invocation: `onSuccess` with its payload (type `A`
differs per operation) or `onError` with its argument (transport error or
the configured duplicate sentinel, both of type `E`). -/
inductive CbEvent (A E : Type) : Type where
  | success (a : A)
  | error (e : E)
deriving DecidableEq

/-- Embeds `create(params)` (source lines 428–453): sets `isCreating`,
awaits the single emission, on a non-null item appends it when
`!hasItemIn(item, items)`, otherwise reports the duplicate and calls
`onError` with the configured sentinel; a null emission does nothing; the
`finalize` hook clears `isCreating` on every path. -/
def createOp {T U S E : Type} [DecidableEq T] (eq : T → T → Bool) (sentinel : E)
    (resp : Except E (Option T)) (s : CollState T U S) :
    CollState T U S × List (CbEvent T E) :=
  let s0 := { s with isCreating := true }
  match resp with
  | Except.error e => ({ s0 with isCreating := false }, [CbEvent.error e])
  | Except.ok none => ({ s0 with isCreating := false }, [])
  | Except.ok (some item) =>
    if !(hasItemIn eq item s0.items) then
      ({ s0 with items := s0.items ++ [item], isCreating := false }, [CbEvent.success item])
    else
      ({ s0 with isCreating := false }, [CbEvent.error sentinel])

/-- Embeds `createMany(params)` (source lines 455–493).  On a non-empty
fetched batch the source runs `upsertMany(fetchedItems, items.slice())` and,
when no duplicate is reported, commits `[...items, ...fetchedItems]`
(line 474) — the concatenation, not the merged copy — together with
`totalCountFetched` from a structured payload (kept unchanged for a bare
array).  An empty structured batch with a defined `totalCount` only updates
the count; `finalize` clears `isCreating` on every path. -/
def createManyOp {T U S E : Type} (eq : T → T → Bool) (sentinel : E)
    (resp : Except E (Option (Fetched T))) (s : CollState T U S) :
    CollState T U S × List (CbEvent (List T) E) :=
  let s0 := { s with isCreating := true }
  match resp with
  | Except.error e => ({ s0 with isCreating := false }, [CbEvent.error e])
  | Except.ok none => ({ s0 with isCreating := false }, [])
  | Except.ok (some fetched) =>
    let fetchedItems := fetched.itemsOf
    if fetchedItems.length > 0 then
      match upsertMany eq fetchedItems s0.items with
      | Sum.inr _ => ({ s0 with isCreating := false }, [CbEvent.error sentinel])
      | Sum.inl _ =>
        ({ s0 with
             items := s0.items ++ fetchedItems,
             totalCountFetched := (match fetched with
               | Fetched.bare _ => s0.totalCountFetched
               | Fetched.withCount _ tc => tc),
             isCreating := false }, [CbEvent.success fetchedItems])
    else
      match fetched with
      | Fetched.bare _ => ({ s0 with isCreating := false }, [])
      | Fetched.withCount _ (some t) =>
        ({ s0 with totalCountFetched := some t, isCreating := false }, [])
      | Fetched.withCount _ none => ({ s0 with isCreating := false }, [])

/-- Embeds `read(params)` (source lines 495–533).  On success the fetched
list replaces `items` wholesale and `totalCountFetched` is set from the
structured payload (unset for a bare array); a fetched result with an
internal duplicate is rejected only when `allowFetchedDuplicates` is false,
in which case `items` is additionally reset unless `keepExistingOnError`.
On failure `items`/`totalCountFetched` are reset unless
`keepExistingOnError`, and only `onError` runs.  A null emission is not
modelled: on that path the source dereferences `fetched.totalCount` of
`null` (line 518).  `finalize` clears `isReading` on every path. -/
def readOp {T U S E : Type} (eq : T → T → Bool) (allowFetchedDuplicates : Bool)
    (sentinel : E) (keepExistingOnError : Bool)
    (resp : Except E (Fetched T)) (s : CollState T U S) :
    CollState T U S × List (CbEvent (List T) E) :=
  let s0 := { s with isReading := true }
  match resp with
  | Except.error e =>
    let s1 := if keepExistingOnError then s0
      else { s0 with items := [], totalCountFetched := none }
    ({ s1 with isReading := false }, [CbEvent.error e])
  | Except.ok fetched =>
    let items := fetched.itemsOf
    if items.length > 0 ∧ (hasDuplicates eq items).isSome ∧ allowFetchedDuplicates = false then
      let s1 := if keepExistingOnError then s0
        else { s0 with items := [], totalCountFetched := none }
      ({ s1 with isReading := false }, [CbEvent.error sentinel])
    else
      ({ s0 with
           items := items,
           totalCountFetched := (match fetched with
             | Fetched.bare _ => none
             | Fetched.withCount _ tc => tc),
           isReading := false }, [CbEvent.success items])

/-- Embeds `readOne(params)` (source lines 695–721): upserts a non-null
emitted item into a copy of `items`; `'duplicate'` triggers only the error
callback with the sentinel; a null emission does nothing; `finalize` clears
`isReading`. -/
def readOneOp {T U S E : Type} (eq : T → T → Bool) (sentinel : E)
    (resp : Except E (Option T)) (s : CollState T U S) :
    CollState T U S × List (CbEvent T E) :=
  let s0 := { s with isReading := true }
  match resp with
  | Except.error e => ({ s0 with isReading := false }, [CbEvent.error e])
  | Except.ok none => ({ s0 with isReading := false }, [])
  | Except.ok (some newItem) =>
    match upsertOne eq newItem s0.items with
    | none => ({ s0 with isReading := false }, [CbEvent.error sentinel])
    | some newItems =>
      ({ s0 with items := newItems, isReading := false }, [CbEvent.success newItem])

/-- Embeds `readMany(params)` (source lines 723–759): merges a non-empty
fetched batch into a copy of `items` via `upsertMany` and commits the merged
copy, keeping `totalCountFetched` for a bare array and adopting
`fetched.totalCount` for a structured payload; `onSuccess` receives the
merged list.  An empty structured batch with a defined `totalCount` only
updates the count.  On failure only `onError` runs — `readMany` has no
`keepExistingOnError` option and resets nothing.  A null emission is not
modelled (the source would dereference `fetched.totalCount` of `null`,
line 750). -/
def readManyOp {T U S E : Type} (eq : T → T → Bool) (sentinel : E)
    (resp : Except E (Fetched T)) (s : CollState T U S) :
    CollState T U S × List (CbEvent (List T) E) :=
  let s0 := { s with isReading := true }
  match resp with
  | Except.error e => ({ s0 with isReading := false }, [CbEvent.error e])
  | Except.ok fetched =>
    let readItems := fetched.itemsOf
    if readItems.length > 0 then
      match upsertMany eq readItems s0.items with
      | Sum.inr _ => ({ s0 with isReading := false }, [CbEvent.error sentinel])
      | Sum.inl newItems =>
        ({ s0 with
             items := newItems,
             totalCountFetched := (match fetched with
               | Fetched.bare _ => s0.totalCountFetched
               | Fetched.withCount _ tc => tc),
             isReading := false }, [CbEvent.success newItems])
    else
      match fetched with
      | Fetched.bare _ => ({ s0 with isReading := false }, [])
      | Fetched.withCount _ (some t) =>
        ({ s0 with totalCountFetched := some t, isReading := false }, [])
      | Fetched.withCount _ none => ({ s0 with isReading := false }, [])

/-- Embeds `update(params)` without a `refreshRequest` (source lines
535–575; when a `refreshRequest` is supplied the source delegates wholesale
to `refresh`, modelled by `refreshOp`).  The given item is added to
`updatingItems` before the request; a non-null emission is upserted into a
copy of `items` (`'duplicate'` triggers only the sentinel error callback);
the `finalize` hook removes the item from `updatingItems` on every path, and
a failure additionally runs only `onError`. -/
def updateOp {T U S E : Type} [DecidableEq T] (eq : T → T → Bool)
    (eqArr : T → List T → Bool) (sentinel : E) (item : T)
    (resp : Except E (Option T)) (s : CollState T U S) :
    CollState T U S × List (CbEvent T E) :=
  let s0 := { s with updatingItems :=
    addToUpdatingItems eq eqArr (Sum.inl item) s.items s.updatingItems }
  let fin := fun (st : CollState T U S) =>
    { st with updatingItems := removeFromUpdatingItems eq (Sum.inl item) st.updatingItems }
  match resp with
  | Except.error e => (fin s0, [CbEvent.error e])
  | Except.ok none => (fin s0, [])
  | Except.ok (some newItem) =>
    match upsertOne eq newItem s0.items with
    | none => (fin s0, [CbEvent.error sentinel])
    | some newItems => (fin { s0 with items := newItems }, [CbEvent.success newItem])

/-- Embeds `refresh(params)` (source lines 627–653): like `updateOp` but on
`refreshingItems`.  A null emission does nothing beyond the guaranteed
tracking removal. -/
def refreshOp {T U S E : Type} [DecidableEq T] (eq : T → T → Bool)
    (eqArr : T → List T → Bool) (sentinel : E) (item : T)
    (resp : Except E (Option T)) (s : CollState T U S) :
    CollState T U S × List (CbEvent T E) :=
  let s0 := { s with refreshingItems :=
    addToRefreshingItems eq eqArr (Sum.inl item) s.items s.refreshingItems }
  let fin := fun (st : CollState T U S) =>
    { st with refreshingItems := removeFromRefreshingItems eq (Sum.inl item) st.refreshingItems }
  match resp with
  | Except.error e => (fin s0, [CbEvent.error e])
  | Except.ok none => (fin s0, [])
  | Except.ok (some newItem) =>
    match upsertOne eq newItem s0.items with
    | none => (fin s0, [CbEvent.error sentinel])
    | some newItems => (fin { s0 with items := newItems }, [CbEvent.success newItem])

/-- Embeds `delete(params)` without a `readRequest` (source lines 577–625;
with a `readRequest` the source delegates the state effects to `read`).
The item is added to `deletingItems` before the request.  On success the
matching items are filtered out of `items` and `totalCountFetched` is
patched only when `getDecrementedTotalCount([response], 1, prev, arg)`
returns non-null; `finalize` removes the item from `deletingItems` on every
path; a failure runs only `onError`. -/
def deleteOp {T U S E : Type} [DecidableEq T] (eq : T → T → Bool)
    (eqArr : T → List T → Bool) (item : T) (decrementTotalCount : Option DecArg)
    (resp : Except E JsVal) (s : CollState T U S) :
    CollState T U S × List (CbEvent JsVal E) :=
  let s0 := { s with deletingItems :=
    addToDeletingItems eq eqArr (Sum.inl item) s.items s.deletingItems }
  let fin := fun (st : CollState T U S) =>
    { st with deletingItems := removeFromDeletingItems eq (Sum.inl item) st.deletingItems }
  match resp with
  | Except.error e => (fin s0, [CbEvent.error e])
  | Except.ok response =>
    let newTotalCount :=
      getDecrementedTotalCount [response] 1 s0.totalCountFetched decrementTotalCount
    let filteredItems := s0.items.filter (fun i => !(eq i item))
    match newTotalCount with
    | none => (fin { s0 with items := filteredItems }, [CbEvent.success response])
    | some t =>
      (fin { s0 with items := filteredItems, totalCountFetched := some t },
       [CbEvent.success response])

/-- Embeds `deleteMany(params)` without a `readRequest` (source lines
805–853).  The request is always a `forkJoin`, so the awaited response is
the list of all constituent responses.  The partial items are added to
`deletingItems` before the request; on success
`getDecrementedTotalCount(response, params.items.length, prev, arg)` decides
the count patch — note `params.items.length`, the number of *passed*
partials — and `items` drops every element matching any passed partial
(`has`); `finalize` removes the partials from `deletingItems` on every
path; a failure runs only `onError`. -/
def deleteManyOp {T U S E : Type} [DecidableEq T] (eq : T → T → Bool)
    (eqArr : T → List T → Bool) (parts : List T) (decrementTotalCount : Option DecArg)
    (resp : Except E (List JsVal)) (s : CollState T U S) :
    CollState T U S × List (CbEvent (List JsVal) E) :=
  let s0 := { s with deletingItems :=
    addToDeletingItems eq eqArr (Sum.inr parts) s.items s.deletingItems }
  let fin := fun (st : CollState T U S) =>
    { st with deletingItems := removeFromDeletingItems eq (Sum.inr parts) st.deletingItems }
  match resp with
  | Except.error e => (fin s0, [CbEvent.error e])
  | Except.ok response =>
    let newTotalCount :=
      getDecrementedTotalCount response parts.length s0.totalCountFetched decrementTotalCount
    let newItems := s0.items.filter (fun i => !(has eq i parts))
    match newTotalCount with
    | none => (fin { s0 with items := newItems }, [CbEvent.success response])
    | some t =>
      (fin { s0 with items := newItems, totalCountFetched := some t },
       [CbEvent.success response])

/-- Concrete entity type for the closed instances below: an entity with an
`id` field plus one payload field, modelled as `ℕ × ℕ` (id, payload).
Modelled from the spec: a comparator configured with `comparatorFields:
['id']` (`comparator.ts` is not among the sources) compares the two `id`
values by strict value equality. -/
def eqFst : ℕ × ℕ → ℕ × ℕ → Bool := fun a b => a.1 == b.1

/-- Modelled from the spec: the configured field comparator applied to an
entity and an *array* value (the type-confused membership check of the
tracking-set `add` methods); §4.1 resolves each configured field by path
with missing paths becoming `undefined`, so an entity with a numeric `id`
never equals an array, giving `false`. -/
def eqFstArr : ℕ × ℕ → List (ℕ × ℕ) → Bool := fun _ _ => false

/-- Field name used by the decrement-policy instances. -/
def deletedCountField : String := "deletedCount"

/-- State with one item `{id:7}` and a fetched total of 5. -/
def stSevenFive : CollState (ℕ × ℕ) Unit Unit :=
  { initialState with items := [(7, 0)], totalCountFetched := some 5 }

/-- State with items `{id:1}`, `{id:2}` and a fetched total of 10. -/
def stTwoTen : CollState (ℕ × ℕ) Unit Unit :=
  { initialState with items := [(1, 0), (2, 0)], totalCountFetched := some 10 }

/-- State with a single item `{id:1}` and a fetched total of 5. -/
def stOneFive : CollState (ℕ × ℕ) Unit Unit :=
  { initialState with items := [(1, 0)], totalCountFetched := some 5 }

/-- State with a single item `{id:1}`. -/
def stOne : CollState (ℕ × ℕ) Unit Unit :=
  { initialState with items := [(1, 0)] }

/-- State with only a fetched total of 10. -/
def stTen : CollState (ℕ × ℕ) Unit Unit :=
  { initialState with totalCountFetched := some 10 }

/-- After the `remove` step of a tracking set, no member comparator-equal to
the operation's input remains. -/
lemma removeFromTrackingItems_clears {T : Type} (eq : T → T → Bool) (input : T ⊕ List T)
    (trackingSet : List T) :
    (removeFromTrackingItems eq input trackingSet).all
      (fun i => !(matchesOp eq input i)) = true := by
  rw [List.all_eq_true]
  intro x hx
  exact (List.mem_filter.mp hx).2

/-- Whatever `getItemByPartial(q, items) ?? q` resolves to is comparator-equal
to the input `q` (in the `equal(resolved, q)` orientation used by both the
resolution and the `remove` step), provided `eq` is reflexive at `q`. -/
lemma getItemByPart_getD_matches {T : Type} (eq : T → T → Bool) (q : T)
    (stateItems : List T) (hq : eq q q = true) :
    eq ((getItemByPart eq q stateItems).getD q) q = true := by
  unfold getItemByPart
  cases h : stateItems.find? (fun i => eq i q) with
  | none => simpa using hq
  | some a => simpa using List.find?_some h

/-- The `remove` step undoes the `add` step of a tracking set when the set
held no member comparator-equal to the operation's input beforehand. -/
lemma remove_add_tracking {T : Type} [DecidableEq T] (eq : T → T → Bool)
    (eqArr : T → List T → Bool) (input : T ⊕ List T) (stateItems trackingSet : List T)
    (hrefl : ∀ a, eq a a = true)
    (hpre : ∀ i ∈ trackingSet, matchesOp eq input i = false) :
    removeFromTrackingItems eq input
      (addToTrackingItems eq eqArr input stateItems trackingSet) = trackingSet := by
  have hkeep : trackingSet.filter (fun i => !(matchesOp eq input i)) = trackingSet := by
    rw [List.filter_eq_self]
    intro a ha
    simp [hpre a ha]
  cases input with
  | inl p =>
    have hnoteq : trackingSet.any (fun i => eq i p) = false := by
      rw [Bool.eq_false_iff]
      intro hany
      obtain ⟨i, hi, hip⟩ := List.any_eq_true.mp hany
      have hm := hpre i hi
      simp [matchesOp] at hm
      simp [hm] at hip
    have hnotmem : trackingSet.contains p = false := by
      rw [Bool.eq_false_iff]
      intro hmem
      have hp : p ∈ trackingSet := by simpa using hmem
      have hm := hpre p hp
      simp [matchesOp, hrefl p] at hm
    have hguard : hasItemIn eq p trackingSet = false := by
      unfold hasItemIn
      rw [hnotmem, hnoteq]
      rfl
    simp only [addToTrackingItems, removeFromTrackingItems, hguard,
      Bool.false_eq_true, if_neg, not_false_eq_true, List.filter_append]
    rw [hkeep]
    have hr := getItemByPart_getD_matches eq p stateItems (hrefl p)
    simp [matchesOp, hr]
  | inr ps =>
    cases hguard : trackingSet.any (fun i => eqArr i ps) with
    | true =>
      simp only [addToTrackingItems, removeFromTrackingItems, hguard, if_pos]
      exact hkeep
    | false =>
      simp only [addToTrackingItems, removeFromTrackingItems, hguard,
        Bool.false_eq_true, if_neg, not_false_eq_true, List.filter_append]
      rw [hkeep]
      have hdrop : (ps.map (fun q => (getItemByPart eq q stateItems).getD q)).filter
          (fun i => !(matchesOp eq (Sum.inr ps) i)) = [] := by
        rw [List.filter_eq_nil_iff]
        intro a ha
        obtain ⟨q, hq, rfl⟩ := List.mem_map.mp ha
        have hr := getItemByPart_getD_matches eq q stateItems (hrefl q)
        have hin : has eq ((getItemByPart eq q stateItems).getD q) ps = true :=
          List.any_eq_true.mpr ⟨q, hq, hr⟩
        simp [matchesOp, hin]
      rw [hdrop, List.append_nil]

/-- `upsertOne` appends when the comparator matches no element. -/
lemma upsertOne_append {T : Type} (eq : T → T → Bool) (item : T) (items : List T)
    (h : items.countP (fun x => eq item x) = 0) :
    upsertOne eq item items = some (items ++ [item]) := by
  induction items with
  | nil => rfl
  | cons x xs ih =>
    rw [List.countP_cons] at h
    by_cases hx : eq item x = true
    · have hite : (if eq item x = true then 1 else 0) = 1 := by simp [hx]
      rw [hite] at h
      omega
    · have hx' : eq item x = false := Bool.eq_false_iff.mpr hx
      have hite : (if eq item x = true then 1 else 0) = 0 := by simp [hx']
      rw [hite, Nat.add_zero] at h
      simp [upsertOne, hx', ih h]

/-- `upsertOne` replaces in place at the position of the unique match. -/
lemma upsertOne_replace {T : Type} (eq : T → T → Bool) (item : T) :
    ∀ (pre : List T) (x : T) (post : List T),
      (∀ y ∈ pre, eq item y = false) → eq item x = true →
      (∀ y ∈ post, eq item y = false) →
      upsertOne eq item (pre ++ x :: post) = some (pre ++ item :: post) := by
  intro pre
  induction pre with
  | nil =>
    intro x post _ hx hpost
    have hany : post.any (fun y => eq item y) = false := by
      rw [Bool.eq_false_iff]
      intro hcontra
      obtain ⟨y, hy, hyy⟩ := List.any_eq_true.mp hcontra
      simp [hpost y hy] at hyy
    simp [upsertOne, hx, hany]
  | cons a pre' ih =>
    intro x post hpre hx hpost
    have ha : eq item a = false := hpre a (by simp)
    have hrest : ∀ y ∈ pre', eq item y = false := fun y hy => hpre y (by simp [hy])
    simp [upsertOne, ha, ih x post hrest hx hpost]

/-- `upsertOne` signals `'duplicate'` when two or more elements match. -/
lemma upsertOne_dup {T : Type} (eq : T → T → Bool) (item : T) (items : List T)
    (h : 2 ≤ items.countP (fun x => eq item x)) :
    upsertOne eq item items = none := by
  induction items with
  | nil => simp [List.countP_nil] at h
  | cons x xs ih =>
    rw [List.countP_cons] at h
    by_cases hx : eq item x = true
    · have hite : (if eq item x = true then 1 else 0) = 1 := by simp [hx]
      rw [hite] at h
      have h1 : 0 < xs.countP (fun x => eq item x) := by omega
      have hany : xs.any (fun y => eq item y) = true := by
        rw [List.any_eq_true]
        exact List.countP_pos_iff.mp h1
      simp [upsertOne, hx, hany]
    · have hx' : eq item x = false := Bool.eq_false_iff.mpr hx
      have hite : (if eq item x = true then 1 else 0) = 0 := by simp [hx']
      rw [hite, Nat.add_zero] at h
      simp [upsertOne, hx', ih h]

/-- Number-valued decrement argument against a present previous total. -/
lemma gdtc_num_some (resp : List JsVal) (cnt : ℕ) (p d : ℚ) :
    getDecrementedTotalCount resp cnt (some p) (some (DecArg.num d)) =
      if p ≠ 0 ∧ d.den = 1 ∧ 0 < d ∧ d ≤ p then some (p - d) else none := rfl

/-- Number-valued decrement argument against an absent previous total. -/
lemma gdtc_num_none (resp : List JsVal) (cnt : ℕ) (d : ℚ) :
    getDecrementedTotalCount resp cnt none (some (DecArg.num d)) = none := rfl

/-- Boolean decrement argument against a present previous total. -/
lemma gdtc_bool_some (resp : List JsVal) (cnt : ℕ) (p : ℚ) (b : Bool) :
    getDecrementedTotalCount resp cnt (some p) (some (DecArg.bool b)) =
      if p ≠ 0 ∧ (cnt : ℚ) ≤ p then some (p - (cnt : ℚ)) else none := rfl

/-- Boolean decrement argument against an absent previous total. -/
lemma gdtc_bool_none (resp : List JsVal) (cnt : ℕ) (b : Bool) :
    getDecrementedTotalCount resp cnt none (some (DecArg.bool b)) = none := rfl

/-- The fetched total after a successful `delete` is governed solely by
`getDecrementedTotalCount` (no change on `null`). -/
lemma deleteOp_ok_total_none {T U S E : Type} [DecidableEq T] (eq : T → T → Bool)
    (eqArr : T → List T → Bool) (item : T) (dec : Option DecArg) (r : JsVal)
    (s : CollState T U S)
    (h : getDecrementedTotalCount [r] 1 s.totalCountFetched dec = none) :
    (deleteOp eq eqArr item dec (Except.ok r : Except E JsVal) s).1.totalCountFetched
      = s.totalCountFetched := by
  simp [deleteOp, h]

/-- The fetched total after a successful `delete`, non-null decrement case. -/
lemma deleteOp_ok_total_some {T U S E : Type} [DecidableEq T] (eq : T → T → Bool)
    (eqArr : T → List T → Bool) (item : T) (dec : Option DecArg) (r : JsVal)
    (s : CollState T U S) (t : ℚ)
    (h : getDecrementedTotalCount [r] 1 s.totalCountFetched dec = some t) :
    (deleteOp eq eqArr item dec (Except.ok r : Except E JsVal) s).1.totalCountFetched
      = some t := by
  simp [deleteOp, h]

/-- The fetched total after a successful `deleteMany` is governed solely by
`getDecrementedTotalCount` applied to the passed item count. -/
lemma deleteManyOp_ok_total_none {T U S E : Type} [DecidableEq T] (eq : T → T → Bool)
    (eqArr : T → List T → Bool) (parts : List T) (dec : Option DecArg) (rs : List JsVal)
    (s : CollState T U S)
    (h : getDecrementedTotalCount rs parts.length s.totalCountFetched dec = none) :
    (deleteManyOp eq eqArr parts dec (Except.ok rs : Except E (List JsVal)) s).1.totalCountFetched
      = s.totalCountFetched := by
  simp [deleteManyOp, h]

/-- The fetched total after a successful `deleteMany`, non-null decrement case. -/
lemma deleteManyOp_ok_total_some {T U S E : Type} [DecidableEq T] (eq : T → T → Bool)
    (eqArr : T → List T → Bool) (parts : List T) (dec : Option DecArg) (rs : List JsVal)
    (s : CollState T U S) (t : ℚ)
    (h : getDecrementedTotalCount rs parts.length s.totalCountFetched dec = some t) :
    (deleteManyOp eq eqArr parts dec (Except.ok rs : Except E (List JsVal)) s).1.totalCountFetched
      = some t := by
  simp [deleteManyOp, h]

/-- The state after the first step of the C1 run: from the initial empty
state, a `create` whose request resolves `{id:1, v:0}`. -/
def c1FirstState : CollState (ℕ × ℕ) Unit Unit :=
  (createOp eqFst () (Except.ok (some ((1 : ℕ), (0 : ℕ)))) initialState).1

/-- The second step of the C1 run: a `createMany` whose request resolves the
bare batch `[{id:1, v:1}]`, comparator-equal (by `id`) to exactly the one
existing element. -/
def c1SecondStep : CollState (ℕ × ℕ) Unit Unit × List (CbEvent (List (ℕ × ℕ)) Unit) :=
  createManyOp eqFst () (Except.ok (some (Fetched.bare [((1 : ℕ), (1 : ℕ))]))) c1FirstState

/-- C1: the no-duplicates invariant of `items` fails on the code.  From the
initial empty state, a `create` that resolves entity `{id:1, v:0}` followed
by a *successful* `createMany` whose fetched batch `[{id:1, v:1}]` is
comparator-equal (comparator by `id`) to exactly the one existing element
leaves `items = [{id:1,v:0}, {id:1,v:1}]`, which contains two
comparator-equal elements — `createMany` commits the concatenation
`[...items, ...fetchedItems]` (source line 474) instead of the
`upsertMany`-merged copy it just computed.  No `read` was involved. -/
theorem createMany_commits_duplicate :
    c1SecondStep.1.items = [(1, 0), (1, 1)]
    ∧ hasDuplicates eqFst c1SecondStep.1.items = some (1, 1)
    ∧ c1SecondStep.2 = [CbEvent.success [(1, 1)]] := by
  decide

/-- C2 (counterexample): a failed `readMany` does *not* reset `items` to
empty nor `totalCountFetched` to unset — its error handler (source line 755)
only invokes the error callback, and `ReadManyParams` has no
`keepExistingOnError` option the caller could have declined. -/
theorem readMany_error_keeps_items :
    ((readManyOp eqFst () (Except.error () : Except Unit (Fetched (ℕ × ℕ)))
        stSevenFive).1.items = [(7, 0)])
    ∧ ((readManyOp eqFst () (Except.error () : Except Unit (Fetched (ℕ × ℕ)))
        stSevenFive).1.totalCountFetched = some 5)
    ∧ [((7 : ℕ), (0 : ℕ))] ≠ [] := by
  decide

/-- C2 (amended): a failed `read` without `keepExistingOnError` resets
`items` to empty and `totalCountFetched` to unset and invokes only the error
callback; a failed `readMany` leaves `items` and `totalCountFetched`
unchanged and invokes only the error callback. -/
theorem read_error_reset_behavior {T U S E : Type} (eq : T → T → Bool) (allow : Bool)
    (sentinel : E) (e : E) (s : CollState T U S) :
    (readOp eq allow sentinel false (Except.error e) s).1.items = []
    ∧ (readOp eq allow sentinel false (Except.error e) s).1.totalCountFetched = none
    ∧ (readOp eq allow sentinel false (Except.error e) s).2 = [CbEvent.error e]
    ∧ (readManyOp eq sentinel (Except.error e) s).1.items = s.items
    ∧ (readManyOp eq sentinel (Except.error e) s).1.totalCountFetched = s.totalCountFetched
    ∧ (readManyOp eq sentinel (Except.error e) s).2 = [CbEvent.error e] :=
  ⟨rfl, rfl, rfl, rfl, rfl, rfl⟩

/-- C3 (counterexample): the size of a tracking set does not always return
to its pre-call value.  With `updatingItems = [{id:1}]` already present
(an overlapping operation on the same entity), an `update` of `{id:1}`
leaves the set unchanged on `add` (`hasItemIn` is true) but its guaranteed
`remove` deletes the pre-existing member too: size 1 before, 0 after. -/
theorem tracking_overlap_size_counterexample :
    (removeFromUpdatingItems eqFst (Sum.inl ((1 : ℕ), (0 : ℕ)))
      (addToUpdatingItems eqFst eqFstArr (Sum.inl ((1 : ℕ), (0 : ℕ))) []
        [((1 : ℕ), (0 : ℕ))]) = [])
    ∧ (0 ≠ [((1 : ℕ), (0 : ℕ))].length) := by
  decide

/-- C3 (amended): for each of the three tracking sets, the guaranteed
`remove` of the finalization step leaves no member comparator-equal to the
operation's input (single or list); and provided the set contained no such
member before the call (no overlapping operation on the same entities), the
`remove` after the `add` restores the set — hence its size — exactly. -/
theorem tracking_finalize_symmetry {T : Type} [DecidableEq T] (eq : T → T → Bool)
    (eqArr : T → List T → Bool) (input : T ⊕ List T)
    (stateItems trackingSet anySet : List T)
    (hrefl : ∀ a, eq a a = true)
    (hpre : ∀ i ∈ trackingSet, matchesOp eq input i = false) :
    removeFromUpdatingItems eq input
        (addToUpdatingItems eq eqArr input stateItems trackingSet) = trackingSet
    ∧ removeFromDeletingItems eq input
        (addToDeletingItems eq eqArr input stateItems trackingSet) = trackingSet
    ∧ removeFromRefreshingItems eq input
        (addToRefreshingItems eq eqArr input stateItems trackingSet) = trackingSet
    ∧ (removeFromUpdatingItems eq input anySet).all
        (fun i => !(matchesOp eq input i)) = true
    ∧ (removeFromDeletingItems eq input anySet).all
        (fun i => !(matchesOp eq input i)) = true
    ∧ (removeFromRefreshingItems eq input anySet).all
        (fun i => !(matchesOp eq input i)) = true := by
  refine ⟨?_, ?_, ?_, ?_, ?_, ?_⟩
  · exact remove_add_tracking eq eqArr input stateItems trackingSet hrefl hpre
  · exact remove_add_tracking eq eqArr input stateItems trackingSet hrefl hpre
  · exact remove_add_tracking eq eqArr input stateItems trackingSet hrefl hpre
  · exact removeFromTrackingItems_clears eq input anySet
  · exact removeFromTrackingItems_clears eq input anySet
  · exact removeFromTrackingItems_clears eq input anySet

/-- C3 (witness). -/
theorem tracking_finalize_symmetry_witness :
    removeFromUpdatingItems eqFst (Sum.inl ((1 : ℕ), (0 : ℕ)))
      (addToUpdatingItems eqFst eqFstArr (Sum.inl ((1 : ℕ), (0 : ℕ))) []
        [((2 : ℕ), (5 : ℕ))]) = [(2, 5)] :=
  (tracking_finalize_symmetry eqFst eqFstArr (Sum.inl ((1 : ℕ), (0 : ℕ))) []
    [((2 : ℕ), (5 : ℕ))] [] (fun a => by simp [eqFst]) (by decide)).1

/-- C4: the string-valued decrement source.  For a single `delete` the
response object's named field (a non-negative integer) becomes the new
total regardless of the prior value (first conjunct: prior 10 becomes 3).
But for a `deleteMany` whose batch has *two* responses the code requires
`response.length === 1` (source line 366) and leaves the total unchanged —
although the first element of the batch exposes `deletedCount: 3` and both
the claim and the parameter's own doc comment ("first one, if it's an
array", source line 94) promise the first element is examined. -/
theorem decrement_string_first_of_batch_bug :
    ((deleteOp eqFst eqFstArr ((1 : ℕ), (0 : ℕ)) (some (DecArg.str deletedCountField))
        (Except.ok (JsVal.obj [(deletedCountField, JsVal.num 3)]) : Except Unit JsVal)
        stTwoTen).1.totalCountFetched = some 3)
    ∧ ((deleteManyOp eqFst eqFstArr [((1 : ℕ), (0 : ℕ))] (some (DecArg.str deletedCountField))
        (Except.ok [JsVal.obj [(deletedCountField, JsVal.num 3)], JsVal.obj []] :
          Except Unit (List JsVal))
        stTwoTen).1.totalCountFetched = some 10) := by
  decide

/-- C5 (counterexample): `deleteMany` with `decrementTotalCount: true`
subtracts the number of *passed* partials, not the number of entities
actually removed.  With `items = [{id:1}]`, total 5, and passed partials
`[{id:1}, {id:2}]` (only one matches), exactly one entity is removed but the
new total is `5 - 2 = 3`, not `5 - 1 = 4` as the claim requires. -/
theorem deleteMany_boolean_removed_counterexample :
    ((deleteManyOp eqFst eqFstArr [((1 : ℕ), (9 : ℕ)), ((2 : ℕ), (9 : ℕ))]
        (some (DecArg.bool true)) (Except.ok [] : Except Unit (List JsVal))
        stOneFive).1.items = [])
    ∧ ((deleteManyOp eqFst eqFstArr [((1 : ℕ), (9 : ℕ)), ((2 : ℕ), (9 : ℕ))]
        (some (DecArg.bool true)) (Except.ok [] : Except Unit (List JsVal))
        stOneFive).1.totalCountFetched = some 3)
    ∧ stOneFive.items.length = 1
    ∧ ¬ ((3 : ℚ) = 5 - 1) := by
  refine ⟨by decide, ?_, by decide, by norm_num⟩
  have h : (deleteManyOp eqFst eqFstArr [((1 : ℕ), (9 : ℕ)), ((2 : ℕ), (9 : ℕ))]
      (some (DecArg.bool true)) (Except.ok [] : Except Unit (List JsVal))
      stOneFive).1.totalCountFetched = some ((5 : ℚ) - ((2 : ℕ) : ℚ)) := rfl
  rw [h]
  norm_num

/-- C5 (amended): `deleteMany` without a `readRequest` and with
`decrementTotalCount: true` sets the new total to the current value minus
the number of partial items *passed to the call* (which equals the number
actually removed only when each passed partial matches exactly one stored
entity), and only when the current total is present, nonzero and at least
that passed count; otherwise the total is unchanged. -/
theorem deleteMany_boolean_decrement {T U S E : Type} [DecidableEq T] (eq : T → T → Bool)
    (eqArr : T → List T → Bool) (parts : List T) (rs : List JsVal) (s : CollState T U S) :
    (∀ p, s.totalCountFetched = some p → p ≠ 0 → (parts.length : ℚ) ≤ p →
      (deleteManyOp eq eqArr parts (some (DecArg.bool true))
        (Except.ok rs : Except E (List JsVal)) s).1.totalCountFetched
        = some (p - (parts.length : ℚ)))
    ∧ ((∀ p, s.totalCountFetched = some p → p = 0 ∨ ¬((parts.length : ℚ) ≤ p)) →
      (deleteManyOp eq eqArr parts (some (DecArg.bool true))
        (Except.ok rs : Except E (List JsVal)) s).1.totalCountFetched
        = s.totalCountFetched) := by
  constructor
  · intro p hp h0 hle
    apply deleteManyOp_ok_total_some
    rw [hp, gdtc_bool_some, if_pos ⟨h0, hle⟩]
  · intro hno
    apply deleteManyOp_ok_total_none
    cases hp : s.totalCountFetched with
    | none => rw [gdtc_bool_none]
    | some p =>
      rw [gdtc_bool_some, if_neg]
      rintro ⟨hne, hl⟩
      rcases hno p hp with h0 | hgt
      · exact hne h0
      · exact hgt hl

/-- C5 (witness). -/
theorem deleteMany_boolean_decrement_witness :
    ((deleteManyOp eqFst eqFstArr [((1 : ℕ), (0 : ℕ)), ((2 : ℕ), (0 : ℕ))]
      (some (DecArg.bool true)) (Except.ok [] : Except Unit (List JsVal))
      stTwoTen).1.totalCountFetched = some ((10 : ℚ) - ((2 : ℕ) : ℚ)))
    ∧ ((deleteManyOp eqFst eqFstArr
      [((1 : ℕ), (0 : ℕ)), ((2 : ℕ), (0 : ℕ)), ((3 : ℕ), (0 : ℕ)),
        ((4 : ℕ), (0 : ℕ)), ((5 : ℕ), (0 : ℕ)), ((6 : ℕ), (0 : ℕ))]
      (some (DecArg.bool true)) (Except.ok [] : Except Unit (List JsVal))
      stOneFive).1.totalCountFetched = stOneFive.totalCountFetched) := by
  constructor
  · exact (deleteMany_boolean_decrement eqFst eqFstArr
      [((1 : ℕ), (0 : ℕ)), ((2 : ℕ), (0 : ℕ))] [] stTwoTen).1 10 rfl
      (by decide) (by decide)
  · refine (deleteMany_boolean_decrement eqFst eqFstArr
      [((1 : ℕ), (0 : ℕ)), ((2 : ℕ), (0 : ℕ)), ((3 : ℕ), (0 : ℕ)),
        ((4 : ℕ), (0 : ℕ)), ((5 : ℕ), (0 : ℕ)), ((6 : ℕ), (0 : ℕ))]
      [] stOneFive).2 ?_
    intro p hp
    have h : (5 : ℚ) = p := Option.some.inj hp
    subst h
    right
    decide

/-- C6: the `add` step of a tracking set *can* create comparator-equal
duplicates inside the set.  For a list input the presence check
`hasItemIn(item, s.updatingItems)` compares the whole array against the set
members (source line 186), so it never prevents the append: adding the batch
`[{id:1}, {id:1}]` to an empty updating set yields a set with two
comparator-equal members. -/
theorem addToTracking_batch_duplicates_bug :
    (addToUpdatingItems eqFst eqFstArr (Sum.inr [((1 : ℕ), (0 : ℕ)), ((1 : ℕ), (0 : ℕ))])
      [] [] = [(1, 0), (1, 0)])
    ∧ eqFst (1, 0) (1, 0) = true := by
  decide

/-- C7: `upsertOne(item, items)` appends `item` when no element matches the
comparator, replaces the element at the position of the unique match when
exactly one matches, and returns `'duplicate'` (here `none`) when two or
more match. -/
theorem upsertOne_matches {T : Type} (eq : T → T → Bool) (item : T) (items : List T) :
    (items.countP (fun x => eq item x) = 0 →
      upsertOne eq item items = some (items ++ [item]))
    ∧ (∀ (pre : List T) (x : T) (post : List T), items = pre ++ x :: post →
        (∀ y ∈ pre, eq item y = false) → eq item x = true →
        (∀ y ∈ post, eq item y = false) →
        upsertOne eq item items = some (pre ++ item :: post))
    ∧ (2 ≤ items.countP (fun x => eq item x) →
      upsertOne eq item items = none) := by
  refine ⟨fun h => upsertOne_append eq item items h, ?_, fun h => upsertOne_dup eq item items h⟩
  intro pre x post hsplit hpre hx hpost
  rw [hsplit]
  exact upsertOne_replace eq item pre x post hpre hx hpost

/-- C7 (witness). -/
theorem upsertOne_matches_witness :
    upsertOne eqFst ((3 : ℕ), (0 : ℕ)) [(1, 0), (2, 0)] = some [(1, 0), (2, 0), (3, 0)]
    ∧ upsertOne eqFst ((2 : ℕ), (9 : ℕ)) [(1, 0), (2, 0), (5, 0)]
        = some [(1, 0), (2, 9), (5, 0)]
    ∧ upsertOne eqFst ((2 : ℕ), (9 : ℕ)) [(2, 0), (2, 1)] = none :=
  ⟨(upsertOne_matches eqFst ((3 : ℕ), (0 : ℕ)) [(1, 0), (2, 0)]).1 (by decide),
   (upsertOne_matches eqFst ((2 : ℕ), (9 : ℕ)) [(1, 0), (2, 0), (5, 0)]).2.1
     [(1, 0)] (2, 0) [(5, 0)] rfl (by decide) (by decide) (by decide),
   (upsertOne_matches eqFst ((2 : ℕ), (9 : ℕ)) [(2, 0), (2, 1)]).2.2 (by decide)⟩

/-- C8: with `items = [{id:1}]` and a comparator by `id`, a `create`
resolving `{id:1}` leaves `items` unchanged and invokes only the error
callback, with the configured duplicate sentinel value as its argument
(the success callback is never invoked: the callback log is exactly the one
error event). -/
theorem create_duplicate_rejected (E : Type) (sentinel : E) :
    (createOp eqFst sentinel (Except.ok (some ((1 : ℕ), (1 : ℕ)))) stOne).1.items = [(1, 0)]
    ∧ (createOp eqFst sentinel (Except.ok (some ((1 : ℕ), (1 : ℕ)))) stOne).2
        = [CbEvent.error sentinel] :=
  ⟨rfl, rfl⟩

/-- C9: integer-valued `decrementTotalCount` for `delete` and `deleteMany`
without a `readRequest`: a positive whole number `d` at most the current
total yields `current - d`; in every other case (non-positive, non-integral,
exceeding the current total, or no current total) the total is unchanged —
and the embedding is a total function, so no exception can propagate. -/
theorem decrement_integer_policy {T U S E : Type} [DecidableEq T] (eq : T → T → Bool)
    (eqArr : T → List T → Bool) (item : T) (parts : List T) (r : JsVal) (rs : List JsVal)
    (d : ℚ) (s : CollState T U S) :
    (∀ p, s.totalCountFetched = some p → d.den = 1 → 0 < d → d ≤ p →
      (deleteOp eq eqArr item (some (DecArg.num d))
          (Except.ok r : Except E JsVal) s).1.totalCountFetched = some (p - d)
      ∧ (deleteManyOp eq eqArr parts (some (DecArg.num d))
          (Except.ok rs : Except E (List JsVal)) s).1.totalCountFetched = some (p - d))
    ∧ ((∀ p, s.totalCountFetched = some p → ¬(d.den = 1 ∧ 0 < d ∧ d ≤ p)) →
      (deleteOp eq eqArr item (some (DecArg.num d))
          (Except.ok r : Except E JsVal) s).1.totalCountFetched = s.totalCountFetched
      ∧ (deleteManyOp eq eqArr parts (some (DecArg.num d))
          (Except.ok rs : Except E (List JsVal)) s).1.totalCountFetched
          = s.totalCountFetched) := by
  constructor
  · intro p hp hden hpos hle
    have hcond : p ≠ 0 ∧ d.den = 1 ∧ 0 < d ∧ d ≤ p :=
      ⟨(lt_of_lt_of_le hpos hle).ne', hden, hpos, hle⟩
    constructor
    · apply deleteOp_ok_total_some
      rw [hp, gdtc_num_some, if_pos hcond]
    · apply deleteManyOp_ok_total_some
      rw [hp, gdtc_num_some, if_pos hcond]
  · intro hno
    have key : ∀ (cnt : ℕ) (resp : List JsVal),
        getDecrementedTotalCount resp cnt s.totalCountFetched (some (DecArg.num d)) = none := by
      intro cnt resp
      cases hp : s.totalCountFetched with
      | none => rw [gdtc_num_none]
      | some p =>
        rw [gdtc_num_some, if_neg]
        rintro ⟨_, hden, hpos, hle⟩
        exact hno p hp ⟨hden, hpos, hle⟩
    exact ⟨deleteOp_ok_total_none eq eqArr item _ r s (key 1 [r]),
      deleteManyOp_ok_total_none eq eqArr parts _ rs s (key parts.length rs)⟩

/-- C9 (witness). -/
theorem decrement_integer_policy_witness :
    ((deleteOp eqFst eqFstArr ((1 : ℕ), (0 : ℕ)) (some (DecArg.num 4))
        (Except.ok JsVal.nullV : Except Unit JsVal) stTen).1.totalCountFetched
        = some ((10 : ℚ) - 4))
    ∧ ((deleteOp eqFst eqFstArr ((1 : ℕ), (0 : ℕ)) (some (DecArg.num 11))
        (Except.ok JsVal.nullV : Except Unit JsVal) stTen).1.totalCountFetched
        = stTen.totalCountFetched) := by
  constructor
  · exact ((decrement_integer_policy eqFst eqFstArr ((1 : ℕ), (0 : ℕ)) [] JsVal.nullV []
      4 stTen).1 10 rfl (by decide) (by decide) (by decide)).1
  · refine ((decrement_integer_policy eqFst eqFstArr ((1 : ℕ), (0 : ℕ)) [] JsVal.nullV []
      11 stTen).2 ?_).1
    intro p hp
    have h : (10 : ℚ) = p := Option.some.inj hp
    subst h
    decide

/-- C10: for `create`, `readOne`, `refresh`, and `update` without a
`refreshRequest`, a request that succeeds with a null value leaves `items`,
`totalCountFetched`, `status` and `statuses` unchanged and invokes neither
callback; only the busy flag set at the start is cleared
(`isCreating`/`isReading`), resp. the tracking-set entry is removed
(no member comparator-equal to the operation's item remains). -/
theorem null_result_frame {T U S E : Type} [DecidableEq T] (eq : T → T → Bool)
    (eqArr : T → List T → Bool) (sentinel : E) (item : T) (s : CollState T U S) :
    (createOp eq sentinel (Except.ok none) s).1 = { s with isCreating := false }
    ∧ (createOp eq sentinel (Except.ok none) s).2 = []
    ∧ (readOneOp eq sentinel (Except.ok none) s).1 = { s with isReading := false }
    ∧ (readOneOp eq sentinel (Except.ok none) s).2 = []
    ∧ (refreshOp eq eqArr sentinel item (Except.ok none) s).1.items = s.items
    ∧ (refreshOp eq eqArr sentinel item (Except.ok none) s).1.totalCountFetched
        = s.totalCountFetched
    ∧ (refreshOp eq eqArr sentinel item (Except.ok none) s).1.status = s.status
    ∧ (refreshOp eq eqArr sentinel item (Except.ok none) s).1.statuses = s.statuses
    ∧ (refreshOp eq eqArr sentinel item (Except.ok none) s).2 = []
    ∧ (refreshOp eq eqArr sentinel item (Except.ok none) s).1.refreshingItems.all
        (fun i => !(eq i item)) = true
    ∧ (updateOp eq eqArr sentinel item (Except.ok none) s).1.items = s.items
    ∧ (updateOp eq eqArr sentinel item (Except.ok none) s).1.totalCountFetched
        = s.totalCountFetched
    ∧ (updateOp eq eqArr sentinel item (Except.ok none) s).1.status = s.status
    ∧ (updateOp eq eqArr sentinel item (Except.ok none) s).1.statuses = s.statuses
    ∧ (updateOp eq eqArr sentinel item (Except.ok none) s).2 = []
    ∧ (updateOp eq eqArr sentinel item (Except.ok none) s).1.updatingItems.all
        (fun i => !(eq i item)) = true := by
  refine ⟨rfl, rfl, rfl, rfl, rfl, rfl, rfl, rfl, rfl, ?_, rfl, rfl, rfl, rfl, rfl, ?_⟩
  · exact removeFromTrackingItems_clears eq (Sum.inl item) _
  · exact removeFromTrackingItems_clears eq (Sum.inl item) _

end NgxCollection
